import Mathlib

/-!
# RPG-Etudiant player relay (`client.js`)

A shallow embedding of the server half of `client.js`: the three module
variables `lastSnapshot`, `lastChats`, `clientStreams`, the broadcaster
`pushToClients`, the three upstream listeners installed by `attachToMJ`, and the
HTTP handlers `/join`, `/say`, `/state`, `/events`.

Modelling conventions.

* A JSON value is a term of `Json`. Numbers are the integers of magnitude at most
  `2^53 - 1`: `JSON.parse` yields them exactly and `JSON.stringify` prints them in
  decimal digits. Other numbers are outside the model.
* `ev.data` of an upstream message is represented by the result of
  `JSON.parse(ev.data)`: `none` when `JSON.parse` throws.
* The listeners call `JSON.parse` with no `try`/`catch` and the file installs no
  handler for uncaught exceptions, so a message whose payload does not parse ends the
  process. A step or a trace therefore gives `Option State`: `none` is the process
  having ended.
* A viewer connection (the `res` object of one `GET /events` request) is an
  identity of type `Chan`. The effect `res.write(line)` is recorded by appending
  `(res, line)` to the field `written` of the relay state. `res.write` reports a
  transport failure through its return value and the stream's error event, which
  the code never reads, so a failed write is a recorded call whose frame does not
  reach the viewer.
* The JavaScript `Set` `clientStreams` is a list in insertion order.
-/

namespace Relay

/-! ## JSON values -/

/-- An integer that a JavaScript number holds exactly and prints in decimal digits:
its magnitude is at most `2^53 - 1`. -/
structure SafeInt where
  val : Int
  safe : val.natAbs ≤ 9007199254740991
  deriving DecidableEq

instance : OfNat SafeInt 0 := ⟨⟨0, by decide⟩⟩

instance : OfNat SafeInt 1 := ⟨⟨1, by decide⟩⟩

/-- A JSON value as produced by `JSON.parse`. The members of an object are listed in
property enumeration order, with distinct keys. -/
inductive Json where
  | null : Json
  | bool (b : Bool) : Json
  | num (n : SafeInt) : Json
  | str (s : String) : Json
  | arr (items : List Json) : Json
  | obj (fields : List (String × Json)) : Json

namespace Json

/-- JavaScript truthiness (`ToBoolean`) of a JSON value. -/
def truthy : Json → Bool
  | null => false
  | bool b => b
  | num n => n.val != 0
  | str s => s != ""
  | arr _ => true
  | obj _ => true

/-- Property read `v.key` on a value: `none` is `undefined`. -/
def get? (v : Json) (key : String) : Option Json :=
  match v with
  | obj fields => fields.lookup key
  | _ => none

end Json

/-- A hexadecimal digit, lower case. -/
def hexDigit (n : Nat) : Char :=
  if n < 10 then Char.ofNat (48 + n) else Char.ofNat (87 + n)

/-- The escape `JSON.stringify` emits for one character of a string. -/
def quoteChar (c : Char) : String :=
  if c = '"' then "\\\""
  else if c = '\\' then "\\\\"
  else if c = '\n' then "\\n"
  else if c = '\r' then "\\r"
  else if c = '\t' then "\\t"
  else if c.toNat = 8 then "\\b"
  else if c.toNat = 12 then "\\f"
  else if c.toNat < 32 then
    "\\u00" ++ String.singleton (hexDigit (c.toNat / 16)) ++ String.singleton (hexDigit (c.toNat % 16))
  else String.singleton c

/-- The quoted form `JSON.stringify` gives a string. -/
def quoteString (s : String) : String :=
  "\"" ++ String.join (s.data.map quoteChar) ++ "\""

mutual
/-- The builtin `JSON.stringify` on JSON values (no indentation). -/
def stringify : Json → String
  | Json.null => "null"
  | Json.bool true => "true"
  | Json.bool false => "false"
  | Json.num n => toString n.val
  | Json.str s => quoteString s
  | Json.arr items => "[" ++ stringifyItems items ++ "]"
  | Json.obj fields => "\x7b" ++ stringifyFields fields ++ "\x7d"
/-- The elements of an array, comma separated. -/
def stringifyItems : List Json → String
  | [] => ""
  | [v] => stringify v
  | v :: rest => stringify v ++ "," ++ stringifyItems rest
/-- The members of an object, comma separated. -/
def stringifyFields : List (String × Json) → String
  | [] => ""
  | [(k, v)] => quoteString k ++ ":" ++ stringify v
  | (k, v) :: rest => quoteString k ++ ":" ++ stringify v ++ "," ++ stringifyFields rest
end

/-! ## Relay state -/

/-- Identity of one viewer connection (`res`). -/
abbrev Chan := Nat

/-- `Set.prototype.add` on an insertion-ordered set. -/
def setAdd (s : List Chan) (x : Chan) : List Chan :=
  if x ∈ s then s else s ++ [x]

/-- `Set.prototype.delete` on an insertion-ordered set. -/
def setDelete (s : List Chan) (x : Chan) : List Chan :=
  s.filter (fun y => y != x)

/-- The module-level variables of `client.js`, and the record of `res.write` calls. -/
structure State where
  lastSnapshot : Json
  lastChats : List Json
  clientStreams : List Chan
  written : List (Chan × String)

/-- The state when the module has just been loaded. -/
def State.init : State :=
  { lastSnapshot := Json.null, lastChats := [], clientStreams := [], written := [] }

/-- The text of one server-sent event. -/
def sseLine (event : String) (payload : Json) : String :=
  "event: " ++ event ++ "\n" ++ "data: " ++ stringify payload ++ "\n\n"

/-- `pushToClients(event, payload)`. -/
def pushToClients (event : String) (payload : Json) (st : State) : State :=
  let line := sseLine event payload
  { st with written := st.written ++ st.clientStreams.map (fun res => (res, line)) }

/-! ## Upstream listeners (`attachToMJ`) -/

/-- An upstream message: `parsed` is the value of `JSON.parse(ev.data)`, and is
`none` when `JSON.parse` throws. -/
structure MessageEvent where
  parsed : Option Json

/-- The call `JSON.parse(ev.data)`: an error stands for the thrown `SyntaxError`. -/
def parseData (ev : MessageEvent) : Except String Json :=
  match ev.parsed with
  | some v => Except.ok v
  | none => Except.error "SyntaxError"

/-- `Array.prototype.shift` for its effect on the array. -/
def shift (xs : List Json) : List Json := xs.tail

/-- The listener for `state`. An error is the exception leaving the listener; it is
raised before any assignment. -/
def stateListener (ev : MessageEvent) (st : State) : Except String State := do
  let v ← parseData ev
  let st := { st with lastSnapshot := v }
  pure (pushToClients "state" st.lastSnapshot st)

/-- The listener for `chat`. -/
def chatListener (ev : MessageEvent) (st : State) : Except String State := do
  let m ← parseData ev
  let st := { st with lastChats := st.lastChats ++ [m] }
  let st := if st.lastChats.length > 200 then { st with lastChats := shift st.lastChats } else st
  pure (pushToClients "chat" m st)

/-- The listener for `turn`. -/
def turnListener (ev : MessageEvent) (st : State) : Except String State := do
  let t ← parseData ev
  pure (pushToClients "turn" t st)

/-- The event names that have a listener. -/
inductive EventName where
  | state
  | chat
  | turn
  deriving DecidableEq, Repr

/-- The name as it is written on the wire. -/
def EventName.text : EventName → String
  | state => "state"
  | chat => "chat"
  | turn => "turn"

/-- The listener registered for a name. -/
def listener : EventName → MessageEvent → State → Except String State
  | EventName.state => stateListener
  | EventName.chat => chatListener
  | EventName.turn => turnListener

/-- Delivery of one upstream message: the listener runs. When it throws, nothing
catches the exception and the process ends: the result is `none`. -/
def deliver (name : EventName) (ev : MessageEvent) (st : State) : Option State :=
  match listener name ev st with
  | Except.ok st' => some st'
  | Except.error _ => none

/-! ## Viewer connections (`GET /events`) -/

/-- The frames the `/events` handler writes to a new connection. -/
def replayLines (st : State) : List String :=
  (if st.lastSnapshot.truthy then [sseLine "state" st.lastSnapshot] else [])
    ++ st.lastChats.map (fun m => sseLine "chat" m)

/-- The handler of `GET /events` for the connection `res`. -/
def eventsHandler (res : Chan) (st : State) : State :=
  let st := { st with clientStreams := setAdd st.clientStreams res }
  let st := if st.lastSnapshot.truthy
    then { st with written := st.written ++ [(res, sseLine "state" st.lastSnapshot)] }
    else st
  { st with written := st.written ++ st.lastChats.map (fun m => (res, sseLine "chat" m)) }

/-- The `close` listener of the request of `res`. -/
def closeHandler (res : Chan) (st : State) : State :=
  { st with clientStreams := setDelete st.clientStreams res }

/-! ## Traces -/

/-- One atomic step of the event loop. -/
inductive Step where
  | upstream (name : EventName) (ev : MessageEvent)
  | attach (res : Chan)
  | close (res : Chan)

/-- The effect of one step on a running process; `none` when the step ends it. -/
def step (st : State) : Step → Option State
  | Step.upstream name ev => deliver name ev st
  | Step.attach res => some (eventsHandler res st)
  | Step.close res => some (closeHandler res st)

/-- The effect of a trace, oldest step first; `none` when the process has ended. -/
def run (st : State) : List Step → Option State
  | [] => some st
  | s :: tr => (step st s).bind (fun st' => run st' tr)

/-- Whether the payload of every upstream message of the trace parses. -/
def wellFormed (tr : List Step) : Bool :=
  tr.all (fun s =>
    match s with
    | Step.upstream _ ev => ev.parsed.isSome
    | _ => true)

/-- The frames written to one connection, oldest first. -/
def linesOf (res : Chan) (st : State) : List String :=
  (st.written.filter (fun w => w.1 == res)).map (fun w => w.2)

/-! ## Request handlers -/

/-- What a handler sends back. -/
structure Reply where
  status : Nat
  body : Json

/-- A request sent to the game master. -/
structure UpstreamCall where
  url : String
  body : Json

/-- What `fetch` followed by `r.json()` can give. -/
inductive FetchResult where
  | rejected
  | response (status : Nat) (json : Option Json)

/-- The outcome of a proxying handler: the calls made upstream and the reply. -/
structure Handled where
  calls : List UpstreamCall
  reply : Reply

/-- A member of an object literal, left out by `JSON.stringify` when undefined. -/
def member (key : String) (v : Option Json) : List (String × Json) :=
  match v with
  | some x => [(key, x)]
  | none => []

/-- The code after `fetch`: `r.json()` then `res.status(r.status).json(j)`, with the
`catch` branch replying 502. -/
def relayResponse (errorText : String) (r : FetchResult) : Reply :=
  match r with
  | FetchResult.rejected => { status := 502, body := Json.obj [("error", Json.str errorText)] }
  | FetchResult.response _ none => { status := 502, body := Json.obj [("error", Json.str errorText)] }
  | FetchResult.response s (some j) => { status := s, body := j }

/-- The handler of `POST /join`. -/
def joinHandler (MJ PLAYER_ID : String) (fetch : UpstreamCall → FetchResult)
    (reqBody : Option Json) : Handled :=
  let call : UpstreamCall :=
    { url := MJ ++ "/join"
      body := Json.obj ([("playerId", Json.str PLAYER_ID)]
        ++ member "name" (reqBody.bind (fun b => b.get? "name"))
        ++ member "cls" (reqBody.bind (fun b => b.get? "cls"))) }
  { calls := [call], reply := relayResponse "join proxy error" (fetch call) }

/-- The value of `text` after `const { text } = req.body || {}`. -/
def textOf (reqBody : Option Json) : Option Json :=
  match reqBody with
  | none => none
  | some b => if b.truthy then b.get? "text" else none

/-- The handler of `POST /say`. -/
def sayHandler (MJ PLAYER_ID : String) (fetch : UpstreamCall → FetchResult)
    (reqBody : Option Json) : Handled :=
  match textOf reqBody with
  | none => { calls := [], reply := { status := 400, body := Json.obj [("error", Json.str "text required")] } }
  | some text =>
    if text.truthy then
      let call : UpstreamCall :=
        { url := MJ ++ "/chat"
          body := Json.obj [("playerId", Json.str PLAYER_ID), ("text", text)] }
      { calls := [call], reply := relayResponse "say proxy error" (fetch call) }
    else { calls := [], reply := { status := 400, body := Json.obj [("error", Json.str "text required")] } }

/-- The handler of `GET /state`. -/
def stateHandler (st : State) : Reply :=
  { status := 200, body := Json.obj [("snapshot", st.lastSnapshot)] }

/-! ## What a trace carries -/

/-- The payloads of the well-formed `state` messages of a trace, in arrival order. -/
def statePayloads (tr : List Step) : List Json :=
  tr.filterMap (fun s =>
    match s with
    | Step.upstream EventName.state ev => ev.parsed
    | _ => none)

/-- The payloads of the well-formed `chat` messages of a trace, in arrival order. -/
def chatPayloads (tr : List Step) : List Json :=
  tr.filterMap (fun s =>
    match s with
    | Step.upstream EventName.chat ev => ev.parsed
    | _ => none)

/-- The frame of each well-formed upstream message of a trace, in arrival order. -/
def liveLines (tr : List Step) : List String :=
  tr.filterMap (fun s =>
    match s with
    | Step.upstream name ev => ev.parsed.map (fun v => sseLine name.text v)
    | _ => none)

/-- Whether a step registers or unregisters the connection `res`. -/
def touches (res : Chan) : Step → Bool
  | Step.attach r => r == res
  | Step.close r => r == res
  | Step.upstream _ _ => false

/-- The last `k` elements of a list. -/
def lastN {α : Type} (k : Nat) (xs : List α) : List α := xs.drop (xs.length - k)

/-- The frames of `ws` that reach their viewer when the writes to the connections
selected by `failing` fail. -/
def delivered (failing : Chan → Bool) (ws : List (Chan × String)) : List (Chan × String) :=
  ws.filter (fun w => !failing w.1)

/-! ## Basic facts -/

theorem deliver_malformed (name : EventName) (st : State) :
    deliver name { parsed := none } st = none := by
  cases name <;> rfl

theorem deliver_state (v : Json) (st : State) :
    deliver EventName.state { parsed := some v } st
      = some (pushToClients "state" v { st with lastSnapshot := v }) := rfl

theorem deliver_chat (m : Json) (st : State) :
    deliver EventName.chat { parsed := some m } st
      = some (pushToClients "chat" m
          (if (st.lastChats ++ [m]).length > 200
            then { st with lastChats := shift (st.lastChats ++ [m]) }
            else { st with lastChats := st.lastChats ++ [m] })) := by
  simp only [deliver, listener, chatListener, parseData, bind, Except.bind, pure, Except.pure]

theorem deliver_turn (t : Json) (st : State) :
    deliver EventName.turn { parsed := some t } st = some (pushToClients "turn" t st) := rfl

theorem run_nil (st : State) : run st [] = some st := rfl

theorem run_cons (st : State) (s : Step) (tr : List Step) :
    run st (s :: tr) = (step st s).bind (fun st' => run st' tr) := rfl

theorem run_append (st : State) (a b : List Step) :
    run st (a ++ b) = (run st a).bind (fun st' => run st' b) := by
  induction a generalizing st with
  | nil => rfl
  | cons s a ih =>
    rw [List.cons_append, run_cons, run_cons]
    cases step st s with
    | none => rfl
    | some st1 => simp only [Option.some_bind, ih]

/-- Case analysis on a step that leaves the process running. -/
theorem step_some_cases (P : Step → State → Prop) (st st1 : State) (s : Step)
    (h : step st s = some st1)
    (hstate : ∀ v, P (Step.upstream EventName.state { parsed := some v })
      (pushToClients "state" v { st with lastSnapshot := v }))
    (hchat : ∀ m, P (Step.upstream EventName.chat { parsed := some m })
      (pushToClients "chat" m
        (if (st.lastChats ++ [m]).length > 200
          then { st with lastChats := shift (st.lastChats ++ [m]) }
          else { st with lastChats := st.lastChats ++ [m] })))
    (hturn : ∀ t, P (Step.upstream EventName.turn { parsed := some t })
      (pushToClients "turn" t st))
    (hattach : ∀ r, P (Step.attach r) (eventsHandler r st))
    (hclose : ∀ r, P (Step.close r) (closeHandler r st)) :
    P s st1 := by
  cases s with
  | upstream name ev =>
    obtain ⟨parsed⟩ := ev
    cases parsed with
    | none =>
      rw [step, deliver_malformed] at h
      cases h
    | some v =>
      cases name
      · rw [step, deliver_state] at h
        cases h
        exact hstate v
      · rw [step, deliver_chat] at h
        cases h
        exact hchat v
      · rw [step, deliver_turn] at h
        cases h
        exact hturn v
  | attach r =>
    rw [step] at h
    cases h
    exact hattach r
  | close r =>
    rw [step] at h
    cases h
    exact hclose r

theorem wellFormed_cons (s : Step) (tr : List Step) :
    wellFormed (s :: tr) = (wellFormed [s] && wellFormed tr) := by
  simp [wellFormed]

theorem wellFormed_append (a b : List Step) :
    wellFormed (a ++ b) = (wellFormed a && wellFormed b) := by
  simp [wellFormed]

theorem step_isSome (st : State) (s : Step) : (step st s).isSome = wellFormed [s] := by
  cases s with
  | upstream name ev =>
    obtain ⟨parsed⟩ := ev
    cases parsed with
    | none => simp [step, deliver_malformed, wellFormed]
    | some v =>
      cases name
      · simp [step, deliver_state, wellFormed]
      · simp [step, deliver_chat, wellFormed]
      · simp [step, deliver_turn, wellFormed]
  | attach r => simp [step, wellFormed]
  | close r => simp [step, wellFormed]

/-- The process is still running after a trace exactly when every payload of the trace
parsed. -/
theorem run_isSome (tr : List Step) (st : State) : (run st tr).isSome = wellFormed tr := by
  induction tr generalizing st with
  | nil => rfl
  | cons s tr ih =>
    rw [run_cons, wellFormed_cons, ← step_isSome st s]
    cases h : step st s with
    | none => rfl
    | some st1 => simp [ih]

theorem run_of_wellFormed (tr : List Step) (st : State) (h : wellFormed tr = true) :
    ∃ st', run st tr = some st' := by
  have := run_isSome tr st
  rw [h] at this
  exact Option.isSome_iff_exists.mp this

theorem run_malformed (pre post : List Step) (name : EventName) (st : State) :
    run st (pre ++ Step.upstream name { parsed := none } :: post) = none := by
  have h := run_isSome (pre ++ Step.upstream name { parsed := none } :: post) st
  have hw : wellFormed (pre ++ Step.upstream name { parsed := none } :: post) = false := by
    simp [wellFormed]
  rw [hw] at h
  cases hr : run st (pre ++ Step.upstream name { parsed := none } :: post) with
  | none => rfl
  | some st' => rw [hr] at h; cases h

@[simp] theorem pushToClients_lastSnapshot (e : String) (p : Json) (st : State) :
    (pushToClients e p st).lastSnapshot = st.lastSnapshot := rfl

@[simp] theorem pushToClients_lastChats (e : String) (p : Json) (st : State) :
    (pushToClients e p st).lastChats = st.lastChats := rfl

@[simp] theorem pushToClients_clientStreams (e : String) (p : Json) (st : State) :
    (pushToClients e p st).clientStreams = st.clientStreams := rfl

@[simp] theorem pushToClients_written (e : String) (p : Json) (st : State) :
    (pushToClients e p st).written
      = st.written ++ st.clientStreams.map (fun res => (res, sseLine e p)) := rfl

@[simp] theorem eventsHandler_lastSnapshot (res : Chan) (st : State) :
    (eventsHandler res st).lastSnapshot = st.lastSnapshot := by
  unfold eventsHandler
  by_cases h : st.lastSnapshot.truthy = true <;> simp [h]

@[simp] theorem eventsHandler_lastChats (res : Chan) (st : State) :
    (eventsHandler res st).lastChats = st.lastChats := by
  unfold eventsHandler
  by_cases h : st.lastSnapshot.truthy = true <;> simp [h]

@[simp] theorem eventsHandler_clientStreams (res : Chan) (st : State) :
    (eventsHandler res st).clientStreams = setAdd st.clientStreams res := by
  unfold eventsHandler
  by_cases h : st.lastSnapshot.truthy = true <;> simp [h]

theorem eventsHandler_written (res : Chan) (st : State) :
    (eventsHandler res st).written
      = st.written ++ (replayLines st).map (fun line => (res, line)) := by
  unfold eventsHandler replayLines
  by_cases h : st.lastSnapshot.truthy = true <;> simp [h]

@[simp] theorem closeHandler_lastSnapshot (res : Chan) (st : State) :
    (closeHandler res st).lastSnapshot = st.lastSnapshot := rfl

@[simp] theorem closeHandler_lastChats (res : Chan) (st : State) :
    (closeHandler res st).lastChats = st.lastChats := rfl

@[simp] theorem closeHandler_clientStreams (res : Chan) (st : State) :
    (closeHandler res st).clientStreams = setDelete st.clientStreams res := rfl

@[simp] theorem closeHandler_written (res : Chan) (st : State) :
    (closeHandler res st).written = st.written := rfl


/-! ## The snapshot -/

theorem statePayloads_cons (s : Step) (tr : List Step) :
    statePayloads (s :: tr) = statePayloads [s] ++ statePayloads tr := by
  show statePayloads ([s] ++ tr) = _
  unfold statePayloads
  rw [List.filterMap_append]

theorem chatPayloads_cons (s : Step) (tr : List Step) :
    chatPayloads (s :: tr) = chatPayloads [s] ++ chatPayloads tr := by
  show chatPayloads ([s] ++ tr) = _
  unfold chatPayloads
  rw [List.filterMap_append]

theorem getLast?_getD_append {α : Type} (a b : List α) (x : α) :
    (a ++ b).getLast?.getD x = b.getLast?.getD (a.getLast?.getD x) := by
  induction a generalizing x with
  | nil => rfl
  | cons y a ih =>
    rw [List.cons_append, List.getLast?_cons, List.getLast?_cons, Option.getD_some,
      Option.getD_some, ih]

theorem step_lastSnapshot (st st1 : State) (s : Step) (h : step st s = some st1) :
    st1.lastSnapshot = (statePayloads [s]).getLast?.getD st.lastSnapshot := by
  refine step_some_cases
    (fun s st1 => st1.lastSnapshot = (statePayloads [s]).getLast?.getD st.lastSnapshot)
    st st1 s h ?_ ?_ ?_ ?_ ?_
  · intro v; rfl
  · intro m
    simp only [pushToClients_lastSnapshot]
    split <;> rfl
  · intro t; rfl
  · intro r; simp [statePayloads]
  · intro r; rfl

theorem run_lastSnapshot (tr : List Step) (st st' : State) (h : run st tr = some st') :
    st'.lastSnapshot = (statePayloads tr).getLast?.getD st.lastSnapshot := by
  induction tr generalizing st with
  | nil =>
    rw [run_nil] at h
    cases h
    rfl
  | cons s tr ih =>
    rw [run_cons] at h
    obtain ⟨st1, h1, h2⟩ := Option.bind_eq_some.mp h
    rw [ih st1 h2, step_lastSnapshot st st1 s h1, statePayloads_cons s tr,
      getLast?_getD_append]

/-! ## The chat buffer -/

theorem lastN_of_length_le {α : Type} (k : Nat) (xs : List α) (h : xs.length ≤ k) :
    lastN k xs = xs := by
  simp [lastN, Nat.sub_eq_zero_of_le h]

theorem length_lastN {α : Type} (k : Nat) (xs : List α) :
    (lastN k xs).length = min xs.length k := by
  simp only [lastN, List.length_drop]
  omega

theorem lastN_append_lastN {α : Type} (k : Nat) (xs ys : List α) :
    lastN k (lastN k xs ++ ys) = lastN k (xs ++ ys) := by
  by_cases h : xs.length ≤ k
  · rw [lastN_of_length_le k xs h]
  · have hk : k < xs.length := Nat.lt_of_not_le h
    have hlen : (lastN k xs).length = k := by rw [length_lastN]; omega
    unfold lastN at hlen ⊢
    rw [List.drop_append_eq_append_drop, List.drop_append_eq_append_drop, List.drop_drop]
    simp only [List.length_append, List.length_drop] at hlen ⊢
    congr 1 <;> congr 1 <;> omega


theorem step_lastChats (st st1 : State) (s : Step) (h : step st s = some st1)
    (hle : st.lastChats.length ≤ 200) :
    st1.lastChats = lastN 200 (st.lastChats ++ chatPayloads [s]) := by
  refine step_some_cases
    (fun s st1 => st1.lastChats = lastN 200 (st.lastChats ++ chatPayloads [s]))
    st st1 s h ?_ ?_ ?_ ?_ ?_
  · intro v
    simp [chatPayloads, lastN_of_length_le _ _ hle]
  · intro v
    simp only [chatPayloads, List.filterMap_cons, List.filterMap_nil]
    by_cases hlen : (st.lastChats ++ [v]).length > 200
    · simp only [hlen, if_true, pushToClients_lastChats, shift, lastN]
      have : (st.lastChats ++ [v]).length - 200 = 1 := by
        simp only [List.length_append, List.length_singleton] at hlen ⊢
        omega
      rw [this, List.drop_one]
    · simp only [hlen, if_false, pushToClients_lastChats]
      rw [lastN_of_length_le]
      exact Nat.le_of_not_lt hlen
  · intro t
    simp [chatPayloads, lastN_of_length_le _ _ hle]
  · intro r
    simp [chatPayloads, lastN_of_length_le _ _ hle]
  · intro r
    simp [chatPayloads, lastN_of_length_le _ _ hle]

theorem run_lastChats (tr : List Step) (st st' : State) (h : run st tr = some st')
    (hle : st.lastChats.length ≤ 200) :
    st'.lastChats = lastN 200 (st.lastChats ++ chatPayloads tr) := by
  induction tr generalizing st with
  | nil =>
    rw [run_nil] at h
    cases h
    simp [chatPayloads, lastN_of_length_le _ _ hle]
  | cons s tr ih =>
    rw [run_cons] at h
    obtain ⟨st1, h1, h2⟩ := Option.bind_eq_some.mp h
    have hs := step_lastChats st st1 s h1 hle
    have hle1 : st1.lastChats.length ≤ 200 := by
      rw [hs, length_lastN]; omega
    rw [ih st1 h2 hle1, hs, lastN_append_lastN, chatPayloads_cons s tr, List.append_assoc]

/-! ## The set of connections -/

theorem mem_setAdd (s : List Chan) (x y : Chan) : y ∈ setAdd s x ↔ y ∈ s ∨ y = x := by
  unfold setAdd
  by_cases h : x ∈ s
  · simp only [h, if_true]
    constructor
    · exact Or.inl
    · rintro (h1 | h1)
      · exact h1
      · exact h1 ▸ h
  · simp [h]

theorem mem_setDelete (s : List Chan) (x y : Chan) : y ∈ setDelete s x ↔ y ∈ s ∧ y ≠ x := by
  simp [setDelete]

theorem setAdd_nodup (s : List Chan) (x : Chan) (h : s.Nodup) : (setAdd s x).Nodup := by
  unfold setAdd
  by_cases hx : x ∈ s
  · simpa [hx] using h
  · simp only [hx, if_false]
    rw [List.nodup_append]
    refine ⟨h, List.nodup_singleton x, ?_⟩
    intro a ha hb
    simp only [List.mem_singleton] at hb
    exact hx (hb ▸ ha)

theorem setDelete_nodup (s : List Chan) (x : Chan) (h : s.Nodup) : (setDelete s x).Nodup :=
  h.filter _

theorem setAdd_of_mem (s : List Chan) (x : Chan) (h : x ∈ s) : setAdd s x = s := by
  simp [setAdd, h]

theorem setDelete_of_not_mem (s : List Chan) (x : Chan) (h : x ∉ s) : setDelete s x = s := by
  unfold setDelete
  rw [List.filter_eq_self]
  intro a ha
  have : a ≠ x := fun e => h (e ▸ ha)
  simpa using this


theorem step_clientStreams (st st1 : State) (s : Step) :
    step st s = some st1 →
    st1.clientStreams =
      match s with
      | Step.upstream _ _ => st.clientStreams
      | Step.attach res => setAdd st.clientStreams res
      | Step.close res => setDelete st.clientStreams res := by
  intro h
  refine step_some_cases
    (fun s st1 => st1.clientStreams =
      match s with
      | Step.upstream _ _ => st.clientStreams
      | Step.attach res => setAdd st.clientStreams res
      | Step.close res => setDelete st.clientStreams res)
    st st1 s h ?_ ?_ ?_ ?_ ?_
  · intro v; rfl
  · intro m
    simp only [pushToClients_clientStreams]
    split <;> rfl
  · intro t; rfl
  · intro r; simp
  · intro r; rfl

theorem step_nodup (st st1 : State) (s : Step) (h : step st s = some st1)
    (hn : st.clientStreams.Nodup) : st1.clientStreams.Nodup := by
  rw [step_clientStreams st st1 s h]
  cases s with
  | upstream name ev => exact hn
  | attach res => exact setAdd_nodup _ _ hn
  | close res => exact setDelete_nodup _ _ hn

theorem run_nodup (tr : List Step) (st st' : State) (h : run st tr = some st')
    (hn : st.clientStreams.Nodup) : st'.clientStreams.Nodup := by
  induction tr generalizing st with
  | nil =>
    rw [run_nil] at h
    cases h
    exact hn
  | cons s tr ih =>
    rw [run_cons] at h
    obtain ⟨st1, h1, h2⟩ := Option.bind_eq_some.mp h
    exact ih st1 h2 (step_nodup st st1 s h1 hn)

/-! ## Frames per connection -/

theorem linesOf_eq (res : Chan) (st : State) :
    linesOf res st = (st.written.filter (fun w => w.1 == res)).map (fun w => w.2) := rfl

theorem lines_broadcast_mem (cs : List Chan) (res : Chan) (line : String)
    (hn : cs.Nodup) (hm : res ∈ cs) :
    ((cs.map (fun r => (r, line))).filter (fun w => w.1 == res)).map (fun w => w.2) = [line] := by
  induction cs with
  | nil => simp at hm
  | cons c cs ih =>
    rw [List.nodup_cons] at hn
    by_cases hc : c = res
    · subst hc
      have hnil : (cs.map (fun r => (r, line))).filter (fun w => w.1 == c) = [] := by
        rw [List.filter_eq_nil_iff]
        intro w hw
        simp only [List.mem_map] at hw
        obtain ⟨r, hr, rfl⟩ := hw
        have : r ≠ c := fun e => hn.1 (e ▸ hr)
        simpa using this
      simp [hnil]
    · have hm' : res ∈ cs := by
        rcases List.mem_cons.mp hm with h | h
        · exact absurd h.symm hc
        · exact h
      simp [hc, ih hn.2 hm']

theorem lines_other (cs : List (Chan × String)) (res : Chan)
    (h : ∀ w ∈ cs, w.1 ≠ res) :
    (cs.filter (fun w => w.1 == res)).map (fun w => w.2) = [] := by
  have : cs.filter (fun w => w.1 == res) = [] := by
    rw [List.filter_eq_nil_iff]
    intro w hw
    simpa using h w hw
  simp [this]

theorem linesOf_pushToClients (e : String) (p : Json) (st : State) (res : Chan)
    (hn : st.clientStreams.Nodup) (hm : res ∈ st.clientStreams) :
    linesOf res (pushToClients e p st) = linesOf res st ++ [sseLine e p] := by
  simp only [linesOf_eq, pushToClients_written, List.filter_append, List.map_append]
  rw [lines_broadcast_mem _ _ _ hn hm]

theorem linesOf_eventsHandler_other (r res : Chan) (st : State) (h : r ≠ res) :
    linesOf res (eventsHandler r st) = linesOf res st := by
  simp only [linesOf_eq, eventsHandler_written, List.filter_append, List.map_append]
  rw [lines_other ((replayLines st).map (fun line => (r, line))) res, List.append_nil]
  intro w hw
  rw [List.mem_map] at hw
  obtain ⟨l, _, hl⟩ := hw
  rw [← hl]
  exact h

theorem linesOf_eventsHandler_self (res : Chan) (st : State) :
    linesOf res (eventsHandler res st) = linesOf res st ++ replayLines st := by
  simp only [linesOf_eq, eventsHandler_written, List.filter_append, List.map_append]
  congr 1
  induction replayLines st with
  | nil => rfl
  | cons l ls ih => simp [ih]

theorem liveLines_cons (s : Step) (tr : List Step) :
    liveLines (s :: tr) = liveLines [s] ++ liveLines tr := by
  show liveLines ([s] ++ tr) = _
  unfold liveLines
  rw [List.filterMap_append]


theorem step_linesOf (res : Chan) (s : Step) (st st1 : State) (h : step st s = some st1)
    (hn : st.clientStreams.Nodup) (hm : res ∈ st.clientStreams)
    (ht : touches res s = false) :
    linesOf res st1 = linesOf res st ++ liveLines [s] ∧ res ∈ st1.clientStreams := by
  refine ⟨?_, ?_⟩
  · revert ht
    refine step_some_cases
      (fun s st1 => touches res s = false →
        linesOf res st1 = linesOf res st ++ liveLines [s])
      st st1 s h ?_ ?_ ?_ ?_ ?_
    · intro v _
      rw [linesOf_pushToClients]
      · rfl
      · exact hn
      · exact hm
    · intro v _
      by_cases hlen : (st.lastChats ++ [v]).length > 200
      · simp only [hlen, if_true]
        rw [linesOf_pushToClients]
        · rfl
        · exact hn
        · exact hm
      · simp only [hlen, if_false]
        rw [linesOf_pushToClients]
        · rfl
        · exact hn
        · exact hm
    · intro t _
      rw [linesOf_pushToClients _ _ _ _ hn hm]
      rfl
    · intro r ht
      have hr : r ≠ res := by simpa [touches] using ht
      simp [linesOf_eventsHandler_other r res st hr, liveLines]
    · intro r _
      simp [linesOf_eq, liveLines]
  · rw [step_clientStreams st st1 s h]
    cases s with
    | upstream name ev => exact hm
    | attach r => exact (mem_setAdd _ _ _).mpr (Or.inl hm)
    | close r =>
      have hr : r ≠ res := by simpa [touches] using ht
      exact (mem_setDelete _ _ _).mpr ⟨hm, fun e => hr e.symm⟩

theorem run_linesOf (res : Chan) (tr : List Step) (st st' : State)
    (h : run st tr = some st')
    (hn : st.clientStreams.Nodup) (hm : res ∈ st.clientStreams)
    (ht : tr.all (fun s => !touches res s) = true) :
    linesOf res st' = linesOf res st ++ liveLines tr := by
  induction tr generalizing st with
  | nil =>
    rw [run_nil] at h
    cases h
    simp [liveLines]
  | cons s tr ih =>
    rw [List.all_cons, Bool.and_eq_true] at ht
    have hs : touches res s = false := by simpa using ht.1
    rw [run_cons] at h
    obtain ⟨st1, h1, h2⟩ := Option.bind_eq_some.mp h
    obtain ⟨e1, e2⟩ := step_linesOf res s st st1 h1 hn hm hs
    rw [ih st1 h2 (step_nodup st st1 s h1 hn) e2 ht.2, e1, liveLines_cons s tr,
      List.append_assoc]

theorem sseLine_text (event : String) (payload : Json) :
    sseLine event payload
      = "event: " ++ (event ++ ("\ndata: " ++ (stringify payload ++ "\n\n"))) := by
  unfold sseLine
  simp only [String.append_assoc]
  rfl

theorem state_line_ne_turn_line (v t : Json) : sseLine "state" v ≠ sseLine "turn" t := by
  intro h
  rw [sseLine_text, sseLine_text] at h
  have h1 := congrArg String.data h
  simp only [String.data_append] at h1
  have h2 := List.append_cancel_left h1
  simp at h2

theorem chat_line_ne_turn_line (v t : Json) : sseLine "chat" v ≠ sseLine "turn" t := by
  intro h
  rw [sseLine_text, sseLine_text] at h
  have h1 := congrArg String.data h
  simp only [String.data_append] at h1
  have h2 := List.append_cancel_left h1
  simp at h2


/-! ## Claims -/

/-- C5. In a trace from the initial state whose payloads all parse, in which the
connection `res` is attached and afterwards neither attached again nor closed, the
process is still running at the end and the frames written to `res` are those written
up to the end of its replay followed by exactly one frame per upstream message that
arrived after the attachment, in arrival order; the frame of a message is the text
`event: <name>\ndata: <JSON.stringify(payload)>\n\n`. -/
theorem live_frames_follow_upstream (pre post : List Step) (res : Chan)
    (hw : wellFormed (pre ++ Step.attach res :: post) = true)
    (h : post.all (fun s => !touches res s) = true) :
    (run State.init (pre ++ Step.attach res :: post)).isSome = true
      ∧ (run State.init (pre ++ Step.attach res :: post)).map (linesOf res)
          = (run State.init (pre ++ [Step.attach res])).map (fun st0 =>
              linesOf res st0 ++ post.filterMap (fun s =>
                match s with
                | Step.upstream name ev =>
                  ev.parsed.map (fun v =>
                    "event: " ++ name.text ++ "\n" ++ "data: " ++ stringify v ++ "\n\n")
                | _ => none)) := by
  have e : pre ++ Step.attach res :: post = (pre ++ [Step.attach res]) ++ post := by simp
  obtain ⟨st1, h1⟩ := run_of_wellFormed _ State.init hw
  have h1' := h1
  rw [e, run_append] at h1'
  obtain ⟨st0, h0, h01⟩ := Option.bind_eq_some.mp h1'
  have h0' := h0
  rw [run_append] at h0'
  obtain ⟨stp, _, hp0⟩ := Option.bind_eq_some.mp h0'
  have hst0 : st0 = eventsHandler res stp := by
    rw [run_cons, step, Option.some_bind, run_nil] at hp0
    cases hp0
    rfl
  have hm : res ∈ st0.clientStreams := by
    rw [hst0, eventsHandler_clientStreams]
    exact (mem_setAdd _ _ _).mpr (Or.inr rfl)
  have hn : st0.clientStreams.Nodup := run_nodup _ _ _ h0 List.nodup_nil
  have hl := run_linesOf res post st0 st1 h01 hn hm h
  refine ⟨by rw [h1]; rfl, ?_⟩
  rw [h1, h0, Option.map_some', Option.map_some', hl]
  rfl

theorem live_frames_follow_upstream_witness :
    (run State.init
        ([Step.upstream EventName.state { parsed := some (Json.obj [("turn", Json.num 1)]) }]
          ++ Step.attach 7 ::
    [Step.upstream EventName.turn { parsed := some (Json.str "p1") },
     Step.attach 8,
     Step.upstream EventName.chat
       { parsed := some
           (Json.obj
              [("from", Json.str "p1"),
               ("text", Json.str "a\"b\\c\n\t\r\x08\x0c\x01\x1f é"),
               ("n", Json.arr [Json.num 1, Json.num ⟨-25, by decide⟩, Json.bool true,
                  Json.bool false, Json.null, Json.arr [], Json.obj [],
                  Json.obj [("k", Json.null)]]),
               ("ts", Json.num 0)]) },
     Step.close 8,
     Step.upstream EventName.state { parsed := some (Json.num 0) }])).map (linesOf 7)
      = some
          ["event: state\ndata: \x7b\"turn\":1\x7d\n\n",
           "event: turn\ndata: \"p1\"\n\n",
           "event: chat\ndata: \x7b\"from\":\"p1\",\"text\":\"a\\\"b\\\\c\\n\\t\\r\\b\\f\\u0001\\u001f é\",\"n\":[1,-25,true,false,null,[],\x7b\x7d,\x7b\"k\":null\x7d],\"ts\":0\x7d\n\n",
           "event: state\ndata: 0\n\n"] :=
  (live_frames_follow_upstream
    [Step.upstream EventName.state { parsed := some (Json.obj [("turn", Json.num 1)]) }]
    [Step.upstream EventName.turn { parsed := some (Json.str "p1") },
     Step.attach 8,
     Step.upstream EventName.chat
       { parsed := some
           (Json.obj
              [("from", Json.str "p1"),
               ("text", Json.str "a\"b\\c\n\t\r\x08\x0c\x01\x1f é"),
               ("n", Json.arr [Json.num 1, Json.num ⟨-25, by decide⟩, Json.bool true,
                  Json.bool false, Json.null, Json.arr [], Json.obj [],
                  Json.obj [("k", Json.null)]]),
               ("ts", Json.num 0)]) },
     Step.close 8,
     Step.upstream EventName.state { parsed := some (Json.num 0) }]
    7 (by decide) (by decide)).2.trans (by decide)

/-- C2. Starting from a state whose chat buffer is empty, after any trace whose payloads
all parse the process is running and the buffer `lastChats` is the last `min N 200`
payloads of the `N` `chat` messages of the trace, in arrival order: its length is
`min N 200`, never more than 200, and exactly 200 once `N` exceeds 200. -/
theorem chat_buffer_keeps_last_200 (tr : List Step) (st : State) (h : st.lastChats = [])
    (hw : wellFormed tr = true) :
    ∃ st', run st tr = some st'
      ∧ st'.lastChats = (chatPayloads tr).drop ((chatPayloads tr).length - 200)
      ∧ st'.lastChats.length = min (chatPayloads tr).length 200
      ∧ st'.lastChats.length ≤ 200
      ∧ (200 < (chatPayloads tr).length → st'.lastChats.length = 200) := by
  obtain ⟨st', hr⟩ := run_of_wellFormed tr st hw
  have hrun : st'.lastChats = lastN 200 (chatPayloads tr) := by
    have := run_lastChats tr st st' hr (by simp [h])
    simpa [h] using this
  have hlen := length_lastN 200 (chatPayloads tr)
  rw [← hrun] at hlen
  refine ⟨st', hr, hrun, hlen, ?_, ?_⟩
  · omega
  · intro hN
    omega

theorem chat_buffer_keeps_last_200_witness :
    ∃ st', run State.init
        (List.replicate 201 (Step.upstream EventName.chat { parsed := some (Json.str "m") })
          ++ [Step.attach 1, Step.upstream EventName.chat { parsed := some (Json.str "z") }])
        = some st'
      ∧ st'.lastChats.length ≤ 200 :=
  (chat_buffer_keeps_last_200
    (List.replicate 201 (Step.upstream EventName.chat { parsed := some (Json.str "m") })
      ++ [Step.attach 1, Step.upstream EventName.chat { parsed := some (Json.str "z") }])
    State.init rfl (by decide)).imp (fun _ hst => ⟨hst.1, hst.2.2.2.1⟩)

/-- C3. After any trace from the initial state whose payloads all parse, the process is
running, `lastSnapshot` is the payload of the last `state` message of the trace, and
`null` when there has been none, and `GET /state` answers with exactly that value under
the key `snapshot`. -/
theorem snapshot_is_last_state_payload (tr : List Step) (hw : wellFormed tr = true) :
    ∃ st, run State.init tr = some st
      ∧ st.lastSnapshot = (statePayloads tr).getLast?.getD Json.null
      ∧ stateHandler st
          = { status := 200
              body := Json.obj [("snapshot", (statePayloads tr).getLast?.getD Json.null)] } := by
  obtain ⟨st, hr⟩ := run_of_wellFormed tr State.init hw
  have h := run_lastSnapshot tr State.init st hr
  refine ⟨st, hr, h, ?_⟩
  unfold stateHandler
  rw [h]
  rfl

theorem snapshot_is_last_state_payload_witness :
    ∃ st, run State.init
        [Step.upstream EventName.state { parsed := some (Json.obj [("turn", Json.num 0)]) },
         Step.attach 1,
         Step.upstream EventName.chat { parsed := some (Json.str "x") },
         Step.upstream EventName.state { parsed := some (Json.obj [("turn", Json.num 1)]) },
         Step.close 1,
         Step.upstream EventName.turn { parsed := some (Json.str "p1") }] = some st
      ∧ stateHandler st
          = { status := 200
              body := Json.obj [("snapshot", Json.obj [("turn", Json.num 1)])] } :=
  (snapshot_is_last_state_payload
    [Step.upstream EventName.state { parsed := some (Json.obj [("turn", Json.num 0)]) },
     Step.attach 1,
     Step.upstream EventName.chat { parsed := some (Json.str "x") },
     Step.upstream EventName.state { parsed := some (Json.obj [("turn", Json.num 1)]) },
     Step.close 1,
     Step.upstream EventName.turn { parsed := some (Json.str "p1") }]
    (by decide)).imp (fun _ hst => ⟨hst.1, hst.2.2⟩)

/-- C1. The code at the failing input: upstream sends `state` with payload `0`, then
`chat` with payload `"hi"`, then a viewer connects. The stored snapshot is `0`, the
viewer is registered, and the only frame written to it is the `chat` frame: no `state`
frame is written. A viewer attached before the same `state` message does get its frame
from the broadcast. -/
theorem events_replay_omits_falsy_snapshot :
    (run State.init
        [Step.upstream EventName.state { parsed := some (Json.num 0) },
         Step.upstream EventName.chat { parsed := some (Json.str "hi") }]).map
        State.lastSnapshot
        = some (Json.num 0)
      ∧ (run State.init
          [Step.upstream EventName.state { parsed := some (Json.num 0) },
           Step.upstream EventName.chat { parsed := some (Json.str "hi") },
           Step.attach 7]).map (linesOf 7)
        = some ["event: chat\ndata: \"hi\"\n\n"]
      ∧ (run State.init
          [Step.upstream EventName.state { parsed := some (Json.num 0) },
           Step.upstream EventName.chat { parsed := some (Json.str "hi") },
           Step.attach 7]).map State.clientStreams
        = some [7]
      ∧ (run State.init
          [Step.attach 7,
           Step.upstream EventName.state { parsed := some (Json.num 0) }]).map (linesOf 7)
        = some ["event: state\ndata: 0\n\n"] := by
  refine ⟨rfl, by decide, by decide, by decide⟩

/-- The replay of `GET /events` when the stored snapshot is truthy: the connection is
registered and is written the `state` frame of the snapshot, then one `chat` frame per
buffered message in buffer order. -/
theorem events_replay_of_truthy_snapshot (res : Chan) (st : State)
    (h : st.lastSnapshot.truthy = true) :
    linesOf res (eventsHandler res st)
        = linesOf res st ++ (sseLine "state" st.lastSnapshot
            :: st.lastChats.map (fun m => sseLine "chat" m))
      ∧ res ∈ (eventsHandler res st).clientStreams := by
  refine ⟨?_, ?_⟩
  · rw [linesOf_eventsHandler_self]
    simp [replayLines, h]
  · rw [eventsHandler_clientStreams]
    exact (mem_setAdd _ _ _).mpr (Or.inr rfl)

/-- C4, as stated, fails. Connections 1 and 2 are registered and a `chat` message `"a"`
is broadcast; the write to connection 1 fails, so only connection 2 receives the
frame. Connection 1 is still in `clientStreams` after that broadcast, and the next
broadcast (`"b"`) writes to it again. -/
theorem broadcast_leaves_failing_channel_registered :
    (run State.init
        [Step.attach 1, Step.attach 2,
         Step.upstream EventName.chat { parsed := some (Json.str "a") }]).map
        (fun st => delivered (fun c => c == 1) st.written)
        = some [(2, "event: chat\ndata: \"a\"\n\n")]
      ∧ (run State.init
          [Step.attach 1, Step.attach 2,
           Step.upstream EventName.chat { parsed := some (Json.str "a") }]).map
          State.clientStreams
        = some [1, 2]
      ∧ (run State.init
          [Step.attach 1, Step.attach 2,
           Step.upstream EventName.chat { parsed := some (Json.str "a") },
           Step.upstream EventName.chat { parsed := some (Json.str "b") }]).map
          (fun st => st.written.drop 2)
        = some [(1, "event: chat\ndata: \"b\"\n\n"), (2, "event: chat\ndata: \"b\"\n\n")] := by
  refine ⟨by decide, by decide, by decide⟩

/-- C4, amended. `pushToClients` calls `write` with the frame once for each member of
`clientStreams` and leaves `clientStreams` as it was. Hence, whichever writes fail,
every member whose own write does not fail receives the frame in that broadcast, and a
member whose write fails is still a member afterwards; it stops being one when the
`close` listener of its request runs. -/
theorem broadcast_writes_all_and_keeps_set (failing : Chan → Bool) (event : String)
    (payload : Json) (st : State) :
    (pushToClients event payload st).clientStreams = st.clientStreams
      ∧ (pushToClients event payload st).written
          = st.written ++ st.clientStreams.map (fun res => (res, sseLine event payload))
      ∧ (∀ d, d ∈ st.clientStreams → failing d = false →
          (d, sseLine event payload) ∈
            delivered failing (st.clientStreams.map (fun res => (res, sseLine event payload))))
      ∧ (∀ c, c ∉ (closeHandler c (pushToClients event payload st)).clientStreams) := by
  refine ⟨rfl, rfl, ?_, ?_⟩
  · intro d hd hf
    simp only [delivered, List.mem_filter, List.mem_map]
    exact ⟨⟨d, hd, rfl⟩, by simp [hf]⟩
  · intro c hc
    rw [closeHandler_clientStreams, mem_setDelete] at hc
    exact hc.2 rfl

theorem broadcast_writes_all_and_keeps_set_witness :
    (2, sseLine "turn" (Json.str "p1")) ∈
        delivered (fun c => c == 1)
          ((eventsHandler 2 (eventsHandler 1 State.init)).clientStreams.map
            (fun res => (res, sseLine "turn" (Json.str "p1"))))
      ∧ (pushToClients "turn" (Json.str "p1")
          (eventsHandler 2 (eventsHandler 1 State.init))).clientStreams
        = (eventsHandler 2 (eventsHandler 1 State.init)).clientStreams :=
  ⟨(broadcast_writes_all_and_keeps_set (fun c => c == 1) "turn" (Json.str "p1")
      (eventsHandler 2 (eventsHandler 1 State.init))).2.2.1 2 (by decide) (by decide),
   (broadcast_writes_all_and_keeps_set (fun c => c == 1) "turn" (Json.str "p1")
      (eventsHandler 2 (eventsHandler 1 State.init))).1⟩

/-- C6, as stated, fails. The upstream answers `POST /join` with status 503 and a body
that is not JSON; the relay answers 502 with the fixed error body, not 503. -/
theorem join_non_json_503_answers_502 :
    (joinHandler "http://localhost:4000" "p1"
        (fun _ => FetchResult.response 503 none) none).reply.status = 502
      ∧ (joinHandler "http://localhost:4000" "p1"
        (fun _ => FetchResult.response 503 none) none).reply.status ≠ 503 := by
  refine ⟨rfl, by decide⟩

/-- C6, amended. `POST /join`, and `POST /say` with a truthy `text`, make one upstream
call. When the upstream response has status `s` and a body that parses to the JSON
value `j`, the relay answers status `s` with body `j`, whatever `s` is. When the call
fails at the transport level, or the response body does not parse as JSON, the relay
answers 502 with the fixed error body. -/
theorem proxy_relays_json_response (MJ PLAYER_ID : String)
    (fetch : UpstreamCall → FetchResult) (reqBody : Option Json) :
    (∃ call, (joinHandler MJ PLAYER_ID fetch reqBody).calls = [call]
        ∧ call.url = MJ ++ "/join"
        ∧ (∀ s j, fetch call = FetchResult.response s (some j) →
            (joinHandler MJ PLAYER_ID fetch reqBody).reply = { status := s, body := j })
        ∧ ((fetch call = FetchResult.rejected ∨ ∃ s, fetch call = FetchResult.response s none) →
            (joinHandler MJ PLAYER_ID fetch reqBody).reply
              = { status := 502, body := Json.obj [("error", Json.str "join proxy error")] }))
      ∧ (∀ text, textOf reqBody = some text → text.truthy = true →
          ∃ call, (sayHandler MJ PLAYER_ID fetch reqBody).calls = [call]
            ∧ call.url = MJ ++ "/chat"
            ∧ (∀ s j, fetch call = FetchResult.response s (some j) →
                (sayHandler MJ PLAYER_ID fetch reqBody).reply = { status := s, body := j })
            ∧ ((fetch call = FetchResult.rejected
                  ∨ ∃ s, fetch call = FetchResult.response s none) →
                (sayHandler MJ PLAYER_ID fetch reqBody).reply
                  = { status := 502
                      body := Json.obj [("error", Json.str "say proxy error")] })) := by
  refine ⟨⟨_, rfl, rfl, ?_, ?_⟩, ?_⟩
  · intro s j h
    simp only [joinHandler, h, relayResponse]
  · rintro (h | ⟨s, h⟩) <;> simp only [joinHandler, h, relayResponse]
  · intro text ht htr
    refine ⟨{ url := MJ ++ "/chat"
              body := Json.obj [("playerId", Json.str PLAYER_ID), ("text", text)] }, ?_, rfl, ?_, ?_⟩
    · simp only [sayHandler, ht, htr, if_true]
    · intro s j h
      simp only [sayHandler, ht, htr, if_true, h, relayResponse]
    · rintro (h | ⟨s, h⟩) <;> simp only [sayHandler, ht, htr, if_true, h, relayResponse]

theorem proxy_relays_json_response_witness :
    (sayHandler "http://localhost:4000" "p1"
        (fun _ => FetchResult.response 503 (some (Json.obj [("error", Json.str "busy")])))
        (some (Json.obj [("text", Json.str "hello")]))).reply
      = { status := 503, body := Json.obj [("error", Json.str "busy")] } := by
  obtain ⟨call, _, _, h, _⟩ :=
    (proxy_relays_json_response "http://localhost:4000" "p1"
      (fun _ => FetchResult.response 503 (some (Json.obj [("error", Json.str "busy")])))
      (some (Json.obj [("text", Json.str "hello")]))).2 (Json.str "hello") rfl (by decide)
  exact h 503 _ rfl

/-- C7. When the body of `POST /say` is missing, or has no `text` property, or has the
empty string as `text`, the handler answers 400 with the body
`{"error":"text required"}` and makes no upstream call. -/
theorem say_without_text_answers_400 (MJ PLAYER_ID : String)
    (fetch : UpstreamCall → FetchResult) (reqBody : Option Json)
    (h : reqBody = none
      ∨ (∃ b, reqBody = some b ∧ b.get? "text" = none)
      ∨ (∃ b, reqBody = some b ∧ b.get? "text" = some (Json.str ""))) :
    (sayHandler MJ PLAYER_ID fetch reqBody).calls = []
      ∧ (sayHandler MJ PLAYER_ID fetch reqBody).reply
          = { status := 400, body := Json.obj [("error", Json.str "text required")] } := by
  rcases h with h | ⟨b, h, hb⟩ | ⟨b, h, hb⟩
  · subst h
    exact ⟨rfl, rfl⟩
  · subst h
    have : textOf (some b) = none := by
      simp only [textOf, hb]
      split <;> rfl
    simp only [sayHandler, this, and_self]
  · subst h
    by_cases ht : b.truthy = true
    · have : textOf (some b) = some (Json.str "") := by simp only [textOf, ht, if_true, hb]
      have hf : (Json.str "").truthy = false := by decide
      simp [sayHandler, this, hf]
    · have : textOf (some b) = none := by simp [textOf, ht]
      simp only [sayHandler, this, and_self]

theorem say_without_text_answers_400_witness :
    (sayHandler "http://localhost:4000" "p1" (fun _ => FetchResult.response 200 (some Json.null))
        (some (Json.obj [("text", Json.str "")]))).calls = []
      ∧ (sayHandler "http://localhost:4000" "p1"
          (fun _ => FetchResult.response 200 (some Json.null))
          (some (Json.obj [("text", Json.str "")]))).reply
        = { status := 400, body := Json.obj [("error", Json.str "text required")] } :=
  say_without_text_answers_400 "http://localhost:4000" "p1"
    (fun _ => FetchResult.response 200 (some Json.null))
    (some (Json.obj [("text", Json.str "")]))
    (Or.inr (Or.inr ⟨_, rfl, rfl⟩))

/-- C8. The code at the failing input: connection 1 is attached and a snapshot is
stored; then a `chat` message arrives whose payload does not parse. The listener
throws, nothing catches the exception, and the process has ended: there is no
snapshot, buffer or connection left, and no later step is served. -/
theorem malformed_payload_ends_process :
    (run State.init
        [Step.attach 1,
         Step.upstream EventName.state { parsed := some (Json.obj [("turn", Json.num 1)]) }]
      ).map State.clientStreams = some [1]
      ∧ listener EventName.chat { parsed := none } (eventsHandler 1 State.init)
          = Except.error "SyntaxError"
      ∧ run State.init
          [Step.attach 1,
           Step.upstream EventName.state { parsed := some (Json.obj [("turn", Json.num 1)]) },
           Step.upstream EventName.chat { parsed := none }] = none
      ∧ run State.init
          [Step.attach 1,
           Step.upstream EventName.state { parsed := some (Json.obj [("turn", Json.num 1)]) },
           Step.upstream EventName.chat { parsed := none },
           Step.attach 2,
           Step.upstream EventName.chat { parsed := some (Json.str "hi") }] = none := by
  refine ⟨by decide, rfl, rfl, rfl⟩

/-- A message whose payload parses to `v` ends in exactly one call
`pushToClients(name, v)`, made on a state with the same connections and the same
written frames as before, so each registered connection is written the frame of `v`
once. -/
theorem wellformed_message_broadcast_once (name : EventName) (v : Json) (st : State) :
    (∃ st1, st1.clientStreams = st.clientStreams ∧ st1.written = st.written
        ∧ deliver name { parsed := some v } st = some (pushToClients name.text v st1))
      ∧ (deliver name { parsed := some v } st).map State.written
          = some (st.written ++ st.clientStreams.map (fun res => (res, sseLine name.text v)))
      ∧ (deliver name { parsed := some v } st).map State.clientStreams
          = some st.clientStreams := by
  cases name
  · exact ⟨⟨{ st with lastSnapshot := v }, rfl, rfl, rfl⟩, rfl, rfl⟩
  · refine ⟨⟨if (st.lastChats ++ [v]).length > 200
          then { st with lastChats := shift (st.lastChats ++ [v]) }
          else { st with lastChats := st.lastChats ++ [v] }, ?_, ?_, ?_⟩, ?_, ?_⟩
    · split <;> rfl
    · split <;> rfl
    · rw [deliver_chat]
      rfl
    · rw [deliver_chat, Option.map_some', pushToClients_written]
      split <;> rfl
    · rw [deliver_chat, Option.map_some', pushToClients_clientStreams]
      split <;> rfl
  · exact ⟨⟨st, rfl, rfl, rfl⟩, rfl, rfl⟩

/-- C9. A `turn` message whose payload parses to `t` leaves `lastSnapshot`, `lastChats`
and `clientStreams` as they were; its only effect is to write the `turn` frame of `t`
to each registered connection. The replay written to a connection attached afterwards
is the one of the state before the message, and no frame of a replay, in any state, is
a `turn` frame. -/
theorem turn_not_stored_not_replayed (t : Json) (st : State) (res : Chan) :
    ∃ st', deliver EventName.turn { parsed := some t } st = some st'
      ∧ st'.lastSnapshot = st.lastSnapshot
      ∧ st'.lastChats = st.lastChats
      ∧ st'.clientStreams = st.clientStreams
      ∧ st'.written = st.written ++ st.clientStreams.map (fun r => (r, sseLine "turn" t))
      ∧ (eventsHandler res st').written
          = st'.written ++ (replayLines st).map (fun line => (res, line))
      ∧ (∀ line, line ∈ replayLines st → ∀ t', line ≠ sseLine "turn" t') := by
  have hnone : ∀ l, l ∈ replayLines st → ∀ t', l ≠ sseLine "turn" t' := by
    intro l hl t'
    unfold replayLines at hl
    rw [List.mem_append] at hl
    rcases hl with hl | hl
    · by_cases htr : st.lastSnapshot.truthy = true
      · simp only [htr, if_true, List.mem_singleton] at hl
        rw [hl]
        exact state_line_ne_turn_line _ _
      · simp [htr] at hl
    · rw [List.mem_map] at hl
      obtain ⟨m, _, hm⟩ := hl
      rw [← hm]
      exact chat_line_ne_turn_line _ _
  refine ⟨pushToClients "turn" t st, deliver_turn t st, rfl, rfl, rfl, rfl, ?_, hnone⟩
  rw [eventsHandler_written]
  rfl

theorem turn_not_stored_not_replayed_witness :
    (∃ st', deliver EventName.turn { parsed := some (Json.str "p2") }
          (pushToClients "state" (Json.num 1)
            { eventsHandler 1 State.init with lastSnapshot := Json.num 1 }) = some st'
        ∧ st'.lastSnapshot = Json.num 1
        ∧ st'.written = [(1, "event: state\ndata: 1\n\n"), (1, "event: turn\ndata: \"p2\"\n\n")])
      ∧ "event: state\ndata: 1\n\n" ≠ sseLine "turn" (Json.str "p2") :=
  ⟨(turn_not_stored_not_replayed (Json.str "p2")
      (pushToClients "state" (Json.num 1)
        { eventsHandler 1 State.init with lastSnapshot := Json.num 1 }) 9).imp
      (fun _ hst => ⟨hst.1, hst.2.1.trans rfl, hst.2.2.2.2.1.trans (by decide)⟩),
   (turn_not_stored_not_replayed (Json.str "p2")
      (pushToClients "state" (Json.num 1)
        { eventsHandler 1 State.init with lastSnapshot := Json.num 1 }) 9).elim
      (fun _ hst => hst.2.2.2.2.2.2 "event: state\ndata: 1\n\n" (by decide) (Json.str "p2"))⟩

/-- C10. Registering a connection that is already in `clientStreams` leaves the set
unchanged, so registering twice is the same as once and a later broadcast writes one
frame to the connection. Unregistering a connection that is not in the set leaves the
set unchanged, so unregistering twice is the same as once, and unregistering one
connection never changes whether another one is a member. -/
theorem register_unregister_idempotent (st : State) (res : Chan)
    (hn : st.clientStreams.Nodup) :
    (res ∈ st.clientStreams → (eventsHandler res st).clientStreams = st.clientStreams)
      ∧ (eventsHandler res (eventsHandler res st)).clientStreams
          = (eventsHandler res st).clientStreams
      ∧ (∀ event payload,
          linesOf res (pushToClients event payload (eventsHandler res (eventsHandler res st)))
            = linesOf res (eventsHandler res (eventsHandler res st)) ++ [sseLine event payload])
      ∧ (res ∉ st.clientStreams → (closeHandler res st).clientStreams = st.clientStreams)
      ∧ closeHandler res (closeHandler res st) = closeHandler res st
      ∧ (∀ d, d ≠ res →
          (d ∈ (closeHandler res st).clientStreams ↔ d ∈ st.clientStreams)) := by
  have hmem : res ∈ (eventsHandler res st).clientStreams := by
    rw [eventsHandler_clientStreams]
    exact (mem_setAdd _ _ _).mpr (Or.inr rfl)
  have htwice : (eventsHandler res (eventsHandler res st)).clientStreams
      = (eventsHandler res st).clientStreams := by
    rw [eventsHandler_clientStreams res (eventsHandler res st)]
    exact setAdd_of_mem _ _ hmem
  refine ⟨?_, htwice, ?_, ?_, ?_, ?_⟩
  · intro h
    rw [eventsHandler_clientStreams]
    exact setAdd_of_mem _ _ h
  · intro event payload
    apply linesOf_pushToClients
    · rw [htwice, eventsHandler_clientStreams]
      exact setAdd_nodup _ _ hn
    · rw [htwice]
      exact hmem
  · intro h
    rw [closeHandler_clientStreams]
    exact setDelete_of_not_mem _ _ h
  · have hno : res ∉ (closeHandler res st).clientStreams := by
      intro hc
      rw [closeHandler_clientStreams, mem_setDelete] at hc
      exact hc.2 rfl
    have := setDelete_of_not_mem _ _ hno
    show ({ closeHandler res st with
      clientStreams := setDelete (closeHandler res st).clientStreams res } : State) = _
    rw [this]
  · intro d hd
    rw [closeHandler_clientStreams, mem_setDelete]
    exact ⟨fun h => h.1, fun h => ⟨h, hd⟩⟩

theorem register_unregister_idempotent_witness :
    (eventsHandler 1 (eventsHandler 2 (eventsHandler 1 State.init))).clientStreams
        = (eventsHandler 2 (eventsHandler 1 State.init)).clientStreams
      ∧ (closeHandler 3 (eventsHandler 2 (eventsHandler 1 State.init))).clientStreams
        = (eventsHandler 2 (eventsHandler 1 State.init)).clientStreams :=
  ⟨(register_unregister_idempotent (eventsHandler 2 (eventsHandler 1 State.init)) 1
      (by decide)).1 (by decide),
   (register_unregister_idempotent (eventsHandler 2 (eventsHandler 1 State.init)) 3
      (by decide)).2.2.2.1 (by decide)⟩

end Relay
